import Mathlib

set_option maxRecDepth 8192

/-!
Shallow embedding of the snowredis repository (Go), covering the snowflake
package: `node.go` (constants, `Node`, `NewNode`) and `snowflake.go`
(`generateLocally`, `generateWithRedisAssistance`, `Generate`, the builder's
`determineConfiguration` / `Build` and `createRedisAllocatedInstance`).

Go `int64` values are modelled as `Int`; wrapping of `<<` on int64 is made
explicit through `wrap64`.  The wall clock (`currentTimeMillis`) is modelled
as a list of successive readings consumed by the generation functions, and
the Redis client is modelled as a list of responses (one per store call)
together with an explicit log of the calls issued.
-/

namespace Snowflake

/-- Epoch Timestamp offset (2022-01-01 00:00:00 UTC), from `node.go`. -/
def Epoch : Int := 1640995200000

/-- Number of datacenter ID bits, from `node.go`. -/
def datacenterBits : Nat := 5

/-- Number of worker ID bits, from `node.go`. -/
def workerBits : Nat := 5

/-- Number of sequence bits, from `node.go`. -/
def sequenceBits : Nat := 12

/-- Maximum datacenter ID, `-1 ^ (-1 << datacenterBits) = 31` in `node.go`. -/
def maxDatacenterID : Int := 2 ^ datacenterBits - 1

/-- Maximum worker ID, `-1 ^ (-1 << workerBits) = 31` in `node.go`. -/
def maxWorkerID : Int := 2 ^ workerBits - 1

/-- Maximum sequence number, `-1 ^ (-1 << sequenceBits) = 4095` in `node.go`. -/
def maxSequence : Int := 2 ^ sequenceBits - 1

/-- Bit shift of the worker ID field, from `node.go`. -/
def workerShift : Nat := sequenceBits

/-- Bit shift of the datacenter ID field, from `node.go`. -/
def datacenterShift : Nat := sequenceBits + workerBits

/-- Bit shift of the timestamp field, from `node.go`. -/
def timestampShift : Nat := sequenceBits + workerBits + datacenterBits

/-- Default datacenter ID, from `snowflake.go`. -/
def DefaultDatacenterID : Int := 1

/-- Default worker ID, from `snowflake.go`. -/
def DefaultWorkerID : Int := 1

/-- Zero sentinel used by the builder, from `snowflake.go`. -/
def ZeroValue : Int := 0

/-- Modulus limiting the datacenter ID to 5 bits, from `snowflake.go`. -/
def MaxDatacenterIDPlusOne : Int := 32

/-- Modulus limiting the worker ID to 5 bits, from `snowflake.go`. -/
def MaxWorkerIDPlusOne : Int := 32

/-- Reduction of a mathematical integer to the Go `int64` value with the same
64-bit two's-complement representation (Go `<<` discards overflowing bits). -/
def wrap64 (x : Int) : Int := (x + 2 ^ 63) % 2 ^ 64 - 2 ^ 63

/-- Go `x << n` on `int64`. -/
def goShiftL (x : Int) (n : Nat) : Int := wrap64 (x * 2 ^ n)

/-- The ID composition of `generateLocally` in `snowflake.go`:
`((timestamp - Epoch) << timestampShift) | (datacenterID << datacenterShift) |
(workerID << workerShift) | sequence` on `int64`. -/
def composeId (timestamp datacenterID workerID sequence : Int) : Int :=
  Int.lor
    (Int.lor
      (Int.lor (goShiftL (timestamp - Epoch) timestampShift)
        (goShiftL datacenterID datacenterShift))
      (goShiftL workerID workerShift))
    sequence

/-- Decoding of the timestamp field, `(id >> 22) + epochMs` (bit-layout wire
contract of the design; Go `>>` on `int64` is an arithmetic shift). -/
def decodeTimestamp (id : Int) : Int := Int.shiftRight id timestampShift + Epoch

/-- Decoding of the datacenter field, `(id >> 17) & 0x1F`. -/
def decodeDatacenter (id : Int) : Int :=
  Int.land (Int.shiftRight id datacenterShift) 31

/-- Decoding of the worker field, `(id >> 12) & 0x1F`. -/
def decodeWorker (id : Int) : Int := Int.land (Int.shiftRight id workerShift) 31

/-- Decoding of the sequence field, `id & 0xFFF`. -/
def decodeSequence (id : Int) : Int := Int.land id 4095

/-- Snowflake algorithm node structure, from `node.go` (the embedded mutex is
part of the concurrency model, not of the sequential state). -/
structure Node where
  datacenterID : Int
  workerID : Int
  sequence : Int
  lastTimestamp : Int
deriving Repr, DecidableEq

/-- `NewNode` from `node.go`: validates the identity and starts with
`sequence = 0`, `lastTimestamp = 0`. -/
def NewNode (datacenterID workerID : Int) : Except String Node :=
  if datacenterID < 0 ∨ datacenterID > maxDatacenterID then
    Except.error "invalid datacenter ID"
  else if workerID < 0 ∨ workerID > maxWorkerID then
    Except.error "invalid worker ID"
  else
    Except.ok
      { datacenterID := datacenterID, workerID := workerID,
        sequence := 0, lastTimestamp := 0 }

/-- The sequence-overflow busy-wait of `generateLocally`:
`for timestamp <= rs.node.lastTimestamp { timestamp = currentTimeMillis() }`.
Successive clock readings are taken from `readings`; `none` means the supplied
clock trace ended before the loop exited. -/
def waitNextMillis (lastTimestamp timestamp : Int) (readings : List Int) :
    Option (Int × List Int) :=
  if timestamp ≤ lastTimestamp then
    match readings with
    | [] => none
    | t :: rest => waitNextMillis lastTimestamp t rest
  else
    some (timestamp, readings)

/-- `generateLocally` from `snowflake.go`, acting on the locked node state.
The head of `readings` is the `currentTimeMillis()` read at entry; further
elements feed the overflow busy-wait.  Returns the call's outcome, the node
state after the call and the unconsumed clock readings (`none` when the
clock trace is too short to drive the call to completion). -/
def generateLocally (node : Node) (readings : List Int) :
    Option (Except String Int × Node × List Int) :=
  match readings with
  | [] => none
  | timestamp :: rest =>
    if timestamp < node.lastTimestamp then
      some (Except.error "clock rollback error", node, rest)
    else if node.lastTimestamp = timestamp then
      let sequence := Int.land (node.sequence + 1) maxSequence
      if sequence = 0 then
        match waitNextMillis node.lastTimestamp timestamp rest with
        | none => none
        | some (timestamp2, rest2) =>
          some (Except.ok
              (composeId timestamp2 node.datacenterID node.workerID sequence),
            { node with sequence := sequence, lastTimestamp := timestamp2 },
            rest2)
      else
        some (Except.ok
            (composeId timestamp node.datacenterID node.workerID sequence),
          { node with sequence := sequence, lastTimestamp := timestamp },
          rest)
    else
      some (Except.ok (composeId timestamp node.datacenterID node.workerID 0),
        { node with sequence := 0, lastTimestamp := timestamp },
        rest)

/-- Iterates `generateLocally`; produces the list of generated IDs, the final
node state and the remaining clock readings.  `none` if any call fails or
runs out of clock readings. -/
def runLocal : Nat → Node → List Int → Option (List Int × Node × List Int)
  | 0, node, readings => some ([], node, readings)
  | n + 1, node, readings =>
    match generateLocally node readings with
    | some (Except.ok id, node2, rest) =>
      match runLocal n node2 rest with
      | some (ids, nodeF, restF) => some (id :: ids, nodeF, restF)
      | none => none
    | _ => none

/-- A call issued to the Redis client (the store): either an atomic
`Incr key` or a `SetNX key` claim (`snowflake.go` always passes value `"1"`
and a 1-hour expiration to `SetNX`, which carry no information here). -/
inductive StoreCall where
  | incr (key : String)
  | setNX (key : String)
deriving Repr, DecidableEq

/-- Key claimed by the strict path, `fmt.Sprintf("snowflake:id:%d", id)`. -/
def strictKey (id : Int) : String := "snowflake:id:" ++ toString id

/-- Retry budget of the strict path, `maxRetries := 10` in `snowflake.go`. -/
def maxRetries : Nat := 10

/-- The candidate ID composed by `generateWithRedisAssistance` at a given
attempt: `((timestamp - Epoch) << timestampShift) | (datacenterID <<
datacenterShift) | (workerID << workerShift) | ((timestamp + int64(attempt)) &
maxSequence)`. -/
def candidateId (node : Node) (timestamp : Int) (attempt : Nat) : Int :=
  composeId timestamp node.datacenterID node.workerID
    (Int.land (timestamp + (attempt : Int)) maxSequence)

/-- The retry loop of `generateWithRedisAssistance`.  Each iteration consumes
one clock reading and one `SetNX` response; `fuel` is the number of attempts
left (`maxRetries - attempt`).  Returns the call's outcome together with the
log of `SetNX` calls issued, or `none` when the supplied traces are too
short. -/
def strictLoop (node : Node) :
    Nat → Nat → List Int → List (Except String Bool) →
    Option (Except String Int × List StoreCall)
  | _, 0, _, _ =>
    some (Except.error "failed to generate unique ID after 10 attempts", [])
  | attempt, fuel + 1, readings, responses =>
    match readings, responses with
    | timestamp :: restR, resp :: restP =>
      let id := candidateId node timestamp attempt
      match resp with
      | Except.error e =>
        some (Except.error ("failed to acquire lock for ID generation: " ++ e),
          [StoreCall.setNX (strictKey id)])
      | Except.ok true =>
        some (Except.ok id, [StoreCall.setNX (strictKey id)])
      | Except.ok false =>
        match strictLoop node (attempt + 1) fuel restR restP with
        | some (r, calls) => some (r, StoreCall.setNX (strictKey id) :: calls)
        | none => none
    | _, _ => none

/-- `generateWithRedisAssistance` from `snowflake.go`: up to `maxRetries`
claim attempts starting at attempt 0 (the 1 ms sleep between attempts has no
sequential effect beyond the fresh clock reading of the next attempt). -/
def generateWithRedisAssistance (node : Node) (readings : List Int)
    (responses : List (Except String Bool)) :
    Option (Except String Int × List StoreCall) :=
  strictLoop node 0 maxRetries readings responses

/-- The `SetNX` calls issued by a run of the strict loop in which every
attempt is answered with contention (`false`), one per clock reading. -/
def contentionCalls (node : Node) : Nat → List Int → List StoreCall
  | _, [] => []
  | attempt, t :: rest =>
    StoreCall.setNX (strictKey (candidateId node t attempt)) ::
      contentionCalls node (attempt + 1) rest

/-- `RedisSnowflake` from `snowflake.go`.  The Redis client is abstracted to
its presence (`hasRedisClient`); its behavior enters through response
traces.  The struct-level `lastTimestamp` field exists in the source but is
never read after construction. -/
structure RedisSnowflake where
  node : Node
  hasRedisClient : Bool
  lastTimestamp : Int
  strictMode : Bool
deriving Repr, DecidableEq

/-- `Generate` from `snowflake.go`: strict mode with a Redis client delegates
to `generateWithRedisAssistance`, anything else to `generateLocally`. -/
def Generate (rs : RedisSnowflake) (readings : List Int)
    (responses : List (Except String Bool)) :
    Option (Except String Int × RedisSnowflake × List StoreCall) :=
  if rs.strictMode && rs.hasRedisClient then
    match generateWithRedisAssistance rs.node readings responses with
    | some (r, calls) => some (r, rs, calls)
    | none => none
  else
    match generateLocally rs.node readings with
    | some (r, node2, _) => some (r, { rs with node := node2 }, [])
    | none => none

/-- `RedisSnowflakeBuilder` from `snowflake.go`; the client field is
abstracted to its presence. -/
structure RedisSnowflakeBuilder where
  hasClient : Bool
  datacenterID : Int
  workerID : Int
  strictMode : Bool
deriving Repr, DecidableEq

/-- `determineConfiguration` from `snowflake.go`: manual IDs (both non-zero)
win; otherwise a configured client triggers Redis allocation; otherwise the
defaults `(1, 1)` are used.  The boolean is the `useRedisAllocation` flag. -/
def determineConfiguration (builder : RedisSnowflakeBuilder) :
    Int × Int × Bool :=
  if builder.datacenterID ≠ ZeroValue ∧ builder.workerID ≠ ZeroValue then
    (builder.datacenterID, builder.workerID, false)
  else if builder.hasClient then
    (ZeroValue, ZeroValue, true)
  else
    (DefaultDatacenterID, DefaultWorkerID, false)

/-- `createInstance` from `snowflake.go`. -/
def createInstance (builder : RedisSnowflakeBuilder)
    (datacenterID workerID : Int) (hasClient : Bool) :
    Except String RedisSnowflake :=
  match NewNode datacenterID workerID with
  | Except.error e => Except.error e
  | Except.ok node =>
    Except.ok
      { node := node, hasRedisClient := hasClient, lastTimestamp := 0,
        strictMode := builder.strictMode }

/-- `createLocalInstance` from `snowflake.go` (client is nil here). -/
def createLocalInstance (builder : RedisSnowflakeBuilder)
    (datacenterID workerID : Int) : Except String RedisSnowflake :=
  createInstance builder datacenterID workerID false

/-- `createInstanceWithClient` from `snowflake.go`. -/
def createInstanceWithClient (builder : RedisSnowflakeBuilder)
    (datacenterID workerID : Int) : Except String RedisSnowflake :=
  createInstance builder datacenterID workerID true

/-- Key of the shared datacenter counter, from `snowflake.go`. -/
def dcKey : String := "snowflake:next_datacenter_id"

/-- Key of the shared worker counter, from `snowflake.go`. -/
def workerKey : String := "snowflake:next_worker_id"

/-- `createRedisAllocatedInstance` from `snowflake.go`: two successive `Incr`
calls (datacenter counter first, then worker counter), each result reduced
with Go's `%` (`Int.tmod`) by 32; an error on either call aborts the whole
construction.  `incrResponses` supplies the store's answer to each `Incr`
call in order; the returned list logs the calls actually issued.  `none`
when the response trace is shorter than the calls made. -/
def createRedisAllocatedInstance (builder : RedisSnowflakeBuilder)
    (incrResponses : List (Except String Int)) :
    Option (Except String RedisSnowflake × List StoreCall) :=
  match incrResponses with
  | [] => none
  | r1 :: rest1 =>
    match r1 with
    | Except.error e =>
      some (Except.error ("failed to get datacenter ID from Redis: " ++ e),
        [StoreCall.incr dcKey])
    | Except.ok raw1 =>
      let datacenterID := Int.tmod raw1 MaxDatacenterIDPlusOne
      match rest1 with
      | [] => none
      | r2 :: _ =>
        match r2 with
        | Except.error e =>
          some (Except.error ("failed to get worker ID from Redis: " ++ e),
            [StoreCall.incr dcKey, StoreCall.incr workerKey])
        | Except.ok raw2 =>
          let workerID := Int.tmod raw2 MaxWorkerIDPlusOne
          some (createInstance builder datacenterID workerID true,
            [StoreCall.incr dcKey, StoreCall.incr workerKey])

/-- `Build` from `snowflake.go`: resolves the configuration via
`determineConfiguration`, then either allocates through Redis, builds with
the client, or builds a pure local instance.  Also returns the log of store
calls issued during construction. -/
def Build (builder : RedisSnowflakeBuilder)
    (incrResponses : List (Except String Int)) :
    Option (Except String RedisSnowflake × List StoreCall) :=
  let conf := determineConfiguration builder
  if conf.2.2 then
    createRedisAllocatedInstance builder incrResponses
  else if builder.hasClient then
    some (createInstanceWithClient builder conf.1 conf.2.1, [])
  else
    some (createLocalInstance builder conf.1 conf.2.1, [])

/-- The decoded `(timestamp, sequence)` pair of an ID. -/
def decodePair (id : Int) : Int × Int := (decodeTimestamp id, decodeSequence id)

/-- Lexicographic strict order on decoded pairs (timestamp-major,
sequence-minor). -/
def pairLt (p q : Int × Int) : Prop :=
  p.1 < q.1 ∨ (p.1 = q.1 ∧ p.2 < q.2)

instance (p q : Int × Int) : Decidable (pairLt p q) :=
  inferInstanceAs (Decidable (p.1 < q.1 ∨ (p.1 = q.1 ∧ p.2 < q.2)))

/-! ### Arithmetic bridges between the bitwise ID layout and its linear form -/

theorem wrap64_eq_self {x : Int} (h0 : -(2 ^ 63) ≤ x) (h1 : x < 2 ^ 63) :
    wrap64 x = x := by
  unfold wrap64
  omega

theorem int_lor_natCast (m n : Nat) :
    Int.lor (m : Int) (n : Int) = ((m ||| n : Nat) : Int) := rfl

theorem int_land_natCast (m n : Nat) :
    Int.land (m : Int) (n : Int) = ((m &&& n : Nat) : Int) := rfl

theorem int_shiftRight_natCast (m s : Nat) :
    Int.shiftRight (m : Int) s = ((m >>> s : Nat) : Int) := rfl

theorem nat_or_shifted {i : Nat} (A b : Nat) (hb : b < 2 ^ i) :
    (2 ^ i * A) ||| b = 2 ^ i * A + b :=
  (Nat.mul_add_lt_is_or hb A).symm

/-- The Nat-level linear value of an encoded ID with in-range fields. -/
def encodeNat (a d w s : Nat) : Nat :=
  a * 2 ^ 22 + d * 2 ^ 17 + w * 2 ^ 12 + s

theorem encodeNat_or (a d w s : Nat) (hd : d < 32) (hw : w < 32)
    (hs : s < 4096) :
    ((a * 2 ^ 22 ||| d * 2 ^ 17) ||| w * 2 ^ 12) ||| s = encodeNat a d w s := by
  have h1 : a * 2 ^ 22 ||| d * 2 ^ 17 = 2 ^ 22 * a + d * 2 ^ 17 := by
    rw [Nat.mul_comm a (2 ^ 22)]
    exact nat_or_shifted a (d * 2 ^ 17) (by omega)
  have e2 : 2 ^ 22 * a + d * 2 ^ 17 = 2 ^ 17 * (2 ^ 5 * a + d) := by ring
  have h2 : (2 ^ 22 * a + d * 2 ^ 17) ||| w * 2 ^ 12
      = 2 ^ 17 * (2 ^ 5 * a + d) + w * 2 ^ 12 := by
    rw [e2]
    exact nat_or_shifted (2 ^ 5 * a + d) (w * 2 ^ 12) (by omega)
  have e3 : 2 ^ 17 * (2 ^ 5 * a + d) + w * 2 ^ 12
      = 2 ^ 12 * (2 ^ 5 * (2 ^ 5 * a + d) + w) := by ring
  have h3 : (2 ^ 17 * (2 ^ 5 * a + d) + w * 2 ^ 12) ||| s
      = 2 ^ 12 * (2 ^ 5 * (2 ^ 5 * a + d) + w) + s := by
    rw [e3]
    exact nat_or_shifted (2 ^ 5 * (2 ^ 5 * a + d) + w) s (by omega)
  rw [h1, h2, h3]
  unfold encodeNat
  ring

theorem composeId_eq_linear (t dc w s : Int) (ht0 : 0 ≤ t - Epoch)
    (ht1 : t - Epoch < 2 ^ 41) (hdc0 : 0 ≤ dc) (hdc1 : dc ≤ 31)
    (hw0 : 0 ≤ w) (hw1 : w ≤ 31) (hs0 : 0 ≤ s) (hs1 : s ≤ 4095) :
    composeId t dc w s
      = ((encodeNat (t - Epoch).toNat dc.toNat w.toNat s.toNat : Nat) : Int) := by
  obtain ⟨a, ha⟩ : ∃ a : Nat, t - Epoch = (a : Int) :=
    ⟨(t - Epoch).toNat, (Int.toNat_of_nonneg ht0).symm⟩
  obtain ⟨d, hd⟩ : ∃ d : Nat, dc = (d : Int) :=
    ⟨dc.toNat, (Int.toNat_of_nonneg hdc0).symm⟩
  obtain ⟨v, hv⟩ : ∃ v : Nat, w = (v : Int) :=
    ⟨w.toNat, (Int.toNat_of_nonneg hw0).symm⟩
  obtain ⟨q, hq⟩ : ∃ q : Nat, s = (q : Int) :=
    ⟨s.toNat, (Int.toNat_of_nonneg hs0).symm⟩
  have haN : a < 2 ^ 41 := by omega
  have hdN : d < 32 := by omega
  have hvN : v < 32 := by omega
  have hqN : q < 4096 := by omega
  unfold composeId goShiftL timestampShift datacenterShift workerShift
  unfold sequenceBits workerBits datacenterBits
  rw [ha, hd, hv, hq]
  have c1 : (a : Int) * 2 ^ (12 + 5 + 5) = ((a * 2 ^ 22 : Nat) : Int) := by
    push_cast
    ring
  have c2 : (d : Int) * 2 ^ (12 + 5) = ((d * 2 ^ 17 : Nat) : Int) := by
    push_cast
    ring
  have c3 : (v : Int) * 2 ^ 12 = ((v * 2 ^ 12 : Nat) : Int) := by
    push_cast
    ring
  have w1 : wrap64 ((a * 2 ^ 22 : Nat) : Int) = ((a * 2 ^ 22 : Nat) : Int) :=
    wrap64_eq_self (by omega) (by omega)
  have w2 : wrap64 ((d * 2 ^ 17 : Nat) : Int) = ((d * 2 ^ 17 : Nat) : Int) :=
    wrap64_eq_self (by omega) (by omega)
  have w3 : wrap64 ((v * 2 ^ 12 : Nat) : Int) = ((v * 2 ^ 12 : Nat) : Int) :=
    wrap64_eq_self (by omega) (by omega)
  rw [c1, c2, c3, w1, w2, w3, int_lor_natCast, int_lor_natCast, int_lor_natCast,
    encodeNat_or a d v q hdN hvN hqN]
  simp

theorem decode_encodeNat (a d w s : Nat) (ha : a < 2 ^ 41) (hd : d < 32)
    (hw : w < 32) (hs : s < 4096) :
    decodeTimestamp ((encodeNat a d w s : Nat) : Int) = (a : Int) + Epoch
    ∧ decodeDatacenter ((encodeNat a d w s : Nat) : Int) = (d : Int)
    ∧ decodeWorker ((encodeNat a d w s : Nat) : Int) = (w : Int)
    ∧ decodeSequence ((encodeNat a d w s : Nat) : Int) = (s : Int) := by
  unfold decodeTimestamp decodeDatacenter decodeWorker decodeSequence
  unfold timestampShift datacenterShift workerShift
  unfold sequenceBits workerBits datacenterBits
  rw [int_shiftRight_natCast, int_shiftRight_natCast, int_shiftRight_natCast]
  have h4095 : (4095 : Int) = ((4095 : Nat) : Int) := rfl
  have h31 : (31 : Int) = ((31 : Nat) : Int) := rfl
  rw [h4095, h31, int_land_natCast, int_land_natCast, int_land_natCast]
  have e31 : (31 : Nat) = 2 ^ 5 - 1 := rfl
  have e4095 : (4095 : Nat) = 2 ^ 12 - 1 := rfl
  rw [Nat.shiftRight_eq_div_pow, Nat.shiftRight_eq_div_pow,
    Nat.shiftRight_eq_div_pow, e31, e4095,
    Nat.and_pow_two_sub_one_eq_mod, Nat.and_pow_two_sub_one_eq_mod,
    Nat.and_pow_two_sub_one_eq_mod]
  unfold encodeNat
  refine ⟨?_, ?_, ?_, ?_⟩
  · have : (a * 2 ^ 22 + d * 2 ^ 17 + w * 2 ^ 12 + s) / 2 ^ (12 + 5 + 5) = a := by
      omega
    rw [this]
  · have : (a * 2 ^ 22 + d * 2 ^ 17 + w * 2 ^ 12 + s) / 2 ^ (12 + 5) % 2 ^ 5
        = d := by omega
    rw [this]
  · have : (a * 2 ^ 22 + d * 2 ^ 17 + w * 2 ^ 12 + s) / 2 ^ 12 % 2 ^ 5
        = w := by omega
    rw [this]
  · have : (a * 2 ^ 22 + d * 2 ^ 17 + w * 2 ^ 12 + s) % 2 ^ 12 = s := by omega
    rw [this]

theorem maxSequence_eq : maxSequence = ((4095 : Nat) : Int) := by
  norm_num [maxSequence, sequenceBits]

theorem int_land_maxSequence (x : Int) (hx : 0 ≤ x) :
    Int.land x maxSequence = x % 4096 := by
  obtain ⟨m, rfl⟩ := Int.eq_ofNat_of_zero_le hx
  rw [maxSequence_eq, int_land_natCast]
  have e : (4095 : Nat) = 2 ^ 12 - 1 := rfl
  rw [e, Nat.and_pow_two_sub_one_eq_mod]
  omega

theorem decode_composeId (t dc w s : Int) (ht0 : Epoch ≤ t)
    (ht1 : t < Epoch + 2 ^ 41) (hdc0 : 0 ≤ dc) (hdc1 : dc ≤ 31)
    (hw0 : 0 ≤ w) (hw1 : w ≤ 31) (hs0 : 0 ≤ s) (hs1 : s ≤ 4095) :
    decodeTimestamp (composeId t dc w s) = t
    ∧ decodeDatacenter (composeId t dc w s) = dc
    ∧ decodeWorker (composeId t dc w s) = w
    ∧ decodeSequence (composeId t dc w s) = s := by
  rw [composeId_eq_linear t dc w s (by omega) (by omega) hdc0 hdc1 hw0 hw1
    hs0 hs1]
  obtain ⟨h1, h2, h3, h4⟩ := decode_encodeNat (t - Epoch).toNat dc.toNat
    w.toNat s.toNat (by omega) (by omega) (by omega) (by omega)
  refine ⟨?_, ?_, ?_, ?_⟩
  · rw [h1]; omega
  · rw [h2]; omega
  · rw [h3]; omega
  · rw [h4]; omega

/-! ### Branch equations of the local generation path -/

theorem generateLocally_rollback (node : Node) (t : Int) (rest : List Int)
    (h : t < node.lastTimestamp) :
    generateLocally node (t :: rest)
      = some (Except.error "clock rollback error", node, rest) := by
  simp [generateLocally, h]

theorem generateLocally_same_ms (node : Node) (t : Int) (rest : List Int)
    (h1 : ¬ t < node.lastTimestamp) (h2 : node.lastTimestamp = t)
    (h3 : Int.land (node.sequence + 1) maxSequence ≠ 0) :
    generateLocally node (t :: rest)
      = some (Except.ok (composeId t node.datacenterID node.workerID
            (Int.land (node.sequence + 1) maxSequence)),
          { node with
            sequence := Int.land (node.sequence + 1) maxSequence
            lastTimestamp := t }, rest) := by
  simp [generateLocally, h1, h2, h3]

theorem generateLocally_overflow (node : Node) (t t2 : Int)
    (rest rest2 : List Int)
    (h1 : ¬ t < node.lastTimestamp) (h2 : node.lastTimestamp = t)
    (h3 : Int.land (node.sequence + 1) maxSequence = 0)
    (h4 : waitNextMillis node.lastTimestamp t rest = some (t2, rest2)) :
    generateLocally node (t :: rest)
      = some (Except.ok (composeId t2 node.datacenterID node.workerID 0),
          { node with sequence := 0, lastTimestamp := t2 }, rest2) := by
  rw [h2] at h4
  simp [generateLocally, h1, h2, h3, h4]

theorem generateLocally_new_ms (node : Node) (t : Int) (rest : List Int)
    (h1 : ¬ t < node.lastTimestamp) (h2 : node.lastTimestamp ≠ t) :
    generateLocally node (t :: rest)
      = some (Except.ok (composeId t node.datacenterID node.workerID 0),
          { node with sequence := 0, lastTimestamp := t }, rest) := by
  simp [generateLocally, h1, h2]

theorem waitNextMillis_sublist :
    ∀ (readings : List Int) (last t t2 : Int) (rest2 : List Int),
      waitNextMillis last t readings = some (t2, rest2) →
      last < t2 ∧ (t2 :: rest2).Sublist (t :: readings) := by
  intro readings
  induction readings with
  | nil =>
    intro last t t2 rest2 h
    unfold waitNextMillis at h
    by_cases hle : t ≤ last
    · rw [if_pos hle] at h
      simp at h
    · rw [if_neg hle] at h
      obtain ⟨rfl, rfl⟩ : t = t2 ∧ ([] : List Int) = rest2 := by
        simpa using h
      exact ⟨by omega, List.Sublist.refl _⟩
  | cons x xs ih =>
    intro last t t2 rest2 h
    unfold waitNextMillis at h
    by_cases hle : t ≤ last
    · rw [if_pos hle] at h
      obtain ⟨h1, h2⟩ := ih last x t2 rest2 h
      exact ⟨h1, h2.trans (List.sublist_cons_self t (x :: xs))⟩
    · rw [if_neg hle] at h
      obtain ⟨rfl, rfl⟩ : t = t2 ∧ x :: xs = rest2 := by
        simpa using h
      exact ⟨by omega, List.Sublist.refl _⟩

theorem generateLocally_overflow_none (node : Node) (t : Int)
    (rest : List Int)
    (h1 : ¬ t < node.lastTimestamp) (h2 : node.lastTimestamp = t)
    (h3 : Int.land (node.sequence + 1) maxSequence = 0)
    (h4 : waitNextMillis node.lastTimestamp t rest = none) :
    generateLocally node (t :: rest) = none := by
  rw [h2] at h4
  simp [generateLocally, h1, h2, h3, h4]

/-- Facts established by one successful local generation step under a
non-decreasing clock trace whose readings do not precede the node's stored
timestamp. -/
theorem generateLocally_ok_step (node node2 : Node) (readings rest : List Int)
    (id : Int)
    (hs0 : 0 ≤ node.sequence) (hs1 : node.sequence ≤ 4095)
    (hch : readings.Chain' (· ≤ ·))
    (hge : ∀ x ∈ readings, node.lastTimestamp ≤ x)
    (h : generateLocally node readings = some (Except.ok id, node2, rest)) :
    (node.lastTimestamp < node2.lastTimestamp
      ∨ (node.lastTimestamp = node2.lastTimestamp
          ∧ node.sequence < node2.sequence))
    ∧ 0 ≤ node2.sequence ∧ node2.sequence ≤ 4095
    ∧ node2.datacenterID = node.datacenterID
    ∧ node2.workerID = node.workerID
    ∧ id = composeId node2.lastTimestamp node.datacenterID node.workerID
        node2.sequence
    ∧ node2.lastTimestamp ∈ readings
    ∧ rest.Sublist readings
    ∧ (∀ x ∈ rest, node2.lastTimestamp ≤ x)
    ∧ rest.Chain' (· ≤ ·) := by
  cases readings with
  | nil => simp [generateLocally] at h
  | cons t rest0 =>
    have hget : node.lastTimestamp ≤ t := hge t (List.mem_cons_self t rest0)
    have h1 : ¬ t < node.lastTimestamp := by omega
    have hpw0 : ∀ x ∈ rest0, t ≤ x :=
      (List.pairwise_cons.mp (List.chain'_iff_pairwise.mp hch)).1
    have hchr : rest0.Chain' (· ≤ ·) := hch.tail
    by_cases h2 : node.lastTimestamp = t
    · have hland : Int.land (node.sequence + 1) maxSequence
          = (node.sequence + 1) % 4096 := int_land_maxSequence _ (by omega)
      by_cases h3 : Int.land (node.sequence + 1) maxSequence = 0
      · rcases hw : waitNextMillis node.lastTimestamp t rest0 with _ | ⟨t2, rest2⟩
        · rw [generateLocally_overflow_none node t rest0 h1 h2 h3 hw] at h
          exact absurd h (by simp)
        · rw [generateLocally_overflow node t t2 rest0 rest2 h1 h2 h3 hw] at h
          simp only [Option.some.injEq, Prod.mk.injEq, Except.ok.injEq] at h
          obtain ⟨hid, hnode, hrest⟩ := h
          obtain ⟨hlt2, hsub2⟩ :=
            waitNextMillis_sublist rest0 node.lastTimestamp t t2 rest2 hw
          subst hnode
          subst hrest
          have hmem : t2 ∈ t :: rest0 :=
            hsub2.subset (List.mem_cons_self t2 rest2)
          have hchain2 : (t2 :: rest2).Chain' (· ≤ ·) := hch.sublist hsub2
          have hrge : ∀ x ∈ rest2, t2 ≤ x :=
            (List.pairwise_cons.mp (List.chain'_iff_pairwise.mp hchain2)).1
          exact ⟨Or.inl (by simpa using hlt2), by simp, by simp, by simp,
            by simp, by simpa using hid.symm, by simpa using hmem,
            List.sublist_of_cons_sublist hsub2, by simpa using hrge,
            hchain2.tail⟩
      · rw [generateLocally_same_ms node t rest0 h1 h2 h3] at h
        simp only [Option.some.injEq, Prod.mk.injEq, Except.ok.injEq] at h
        obtain ⟨hid, hnode, hrest⟩ := h
        subst hnode
        subst hrest
        have hseq : Int.land (node.sequence + 1) maxSequence
            = node.sequence + 1 := by
          rw [hland] at h3 ⊢
          omega
        refine ⟨Or.inr ⟨by simpa using h2, ?_⟩, ?_, ?_, by simp, by simp,
          by simpa using hid.symm, by simpa using List.mem_cons_self t rest0,
          List.sublist_cons_self t rest0, by simpa using hpw0, hchr⟩
        · show node.sequence < Int.land (node.sequence + 1) maxSequence
          rw [hseq]
          omega
        · show 0 ≤ Int.land (node.sequence + 1) maxSequence
          rw [hland]
          omega
        · show Int.land (node.sequence + 1) maxSequence ≤ 4095
          rw [hland]
          omega
    · have hlt : node.lastTimestamp < t := by omega
      rw [generateLocally_new_ms node t rest0 h1 h2] at h
      simp only [Option.some.injEq, Prod.mk.injEq, Except.ok.injEq] at h
      obtain ⟨hid, hnode, hrest⟩ := h
      subst hnode
      subst hrest
      exact ⟨Or.inl (by simpa using hlt), by simp, by simp, by simp, by simp,
        by simpa using hid.symm, by simpa using List.mem_cons_self t rest0,
        List.sublist_cons_self t rest0, by simpa using hpw0, hchr⟩

instance pairLt_decode_trans :
    IsTrans Int fun i j => pairLt (decodePair i) (decodePair j) := by
  constructor
  intro a b c hab hbc
  unfold pairLt decodePair at *
  simp only at hab hbc ⊢
  omega

/-- Running `n` successful local generations under a non-decreasing,
window-bounded clock yields lexicographically strictly increasing decoded
`(timestamp, sequence)` pairs, each strictly above the starting state, with
all decoded sequences in range. -/
theorem runLocal_invariant :
    ∀ (n : Nat) (node : Node) (readings ids : List Int) (nodeF : Node)
      (restF : List Int),
      0 ≤ node.datacenterID → node.datacenterID ≤ 31 →
      0 ≤ node.workerID → node.workerID ≤ 31 →
      0 ≤ node.sequence → node.sequence ≤ 4095 →
      readings.Chain' (· ≤ ·) →
      (∀ x ∈ readings,
        node.lastTimestamp ≤ x ∧ Epoch ≤ x ∧ x < Epoch + 2 ^ 41) →
      runLocal n node readings = some (ids, nodeF, restF) →
      List.Chain' (fun i j => pairLt (decodePair i) (decodePair j)) ids
      ∧ (∀ i1 ∈ ids.head?,
          pairLt (node.lastTimestamp, node.sequence) (decodePair i1))
      ∧ (∀ i ∈ ids, 0 ≤ decodeSequence i ∧ decodeSequence i ≤ 4095) := by
  intro n
  induction n with
  | zero =>
    intro node readings ids nodeF restF _ _ _ _ _ _ _ _ hrun
    obtain ⟨rfl, -, -⟩ :
        ([] : List Int) = ids ∧ node = nodeF ∧ readings = restF := by
      simpa [runLocal] using hrun
    simp
  | succ n ih =>
    intro node readings ids nodeF restF hd0 hd1 hw0 hw1 hs0 hs1 hch hprop hrun
    rw [runLocal] at hrun
    rcases hg : generateLocally node readings with _ | ⟨r, node2, rest⟩
    · rw [hg] at hrun
      exact absurd hrun (by simp)
    · rw [hg] at hrun
      rcases r with e | id
      · exact absurd hrun (by simp)
      · rcases hr2 : runLocal n node2 rest with _ | ⟨ids2, nF, rF⟩
        · simp [hr2] at hrun
        · simp only [hr2, Option.some.injEq, Prod.mk.injEq] at hrun
          obtain ⟨hids, hnF, hrF⟩ := hrun
          subst hids
          obtain ⟨hinc, hq0, hq1, hdc, hwk, hid, hmem, hsub, hge2, hch2⟩ :=
            generateLocally_ok_step node node2 readings rest id hs0 hs1 hch
              (fun x hx => (hprop x hx).1) hg
          have hwin2 : Epoch ≤ node2.lastTimestamp
              ∧ node2.lastTimestamp < Epoch + 2 ^ 41 :=
            ⟨(hprop _ hmem).2.1, (hprop _ hmem).2.2⟩
          obtain ⟨hdec1, -, -, hdec4⟩ :=
            decode_composeId node2.lastTimestamp node.datacenterID
              node.workerID node2.sequence hwin2.1 hwin2.2 hd0 hd1 hw0 hw1
              hq0 hq1
          have hdecid : decodePair id = (node2.lastTimestamp, node2.sequence) := by
            unfold decodePair
            rw [hid, hdec1, hdec4]
          obtain ⟨ihch, ihhead, ihseq⟩ :=
            ih node2 rest ids2 nF rF (hdc ▸ hd0) (hdc ▸ hd1) (hwk ▸ hw0)
              (hwk ▸ hw1) hq0 hq1 hch2
              (fun x hx => ⟨hge2 x hx, (hprop x (hsub.subset hx)).2.1,
                (hprop x (hsub.subset hx)).2.2⟩) hr2
          refine ⟨?_, ?_, ?_⟩
          · rw [List.chain'_cons']
            refine ⟨?_, ihch⟩
            intro y hy
            have := ihhead y hy
            rw [hdecid]
            exact this
          · intro i1 hi1
            simp only [List.head?_cons, Option.mem_def, Option.some.injEq] at hi1
            subst hi1
            rw [hdecid]
            unfold pairLt
            simpa using hinc
          · intro i hi
            rcases List.mem_cons.mp hi with rfl | hi2
            · rw [hid, hdec4]
              exact ⟨hq0, hq1⟩
            · exact ihseq i hi2

/-- A strictly increasing list of integers inside a half-open window is no
longer than the window. -/
theorem pairwise_lt_length_le :
    ∀ (l : List Int) (a b : Int), List.Pairwise (· < ·) l →
      (∀ x ∈ l, a ≤ x ∧ x < b) → l.length ≤ (b - a).toNat := by
  intro l
  induction l with
  | nil =>
    intro a b _ _
    simp
  | cons x xs ih =>
    intro a b hpw hmem
    have hx := hmem x (List.mem_cons_self x xs)
    have hxs : ∀ y ∈ xs, x + 1 ≤ y ∧ y < b := by
      intro y hy
      have h1 := (List.pairwise_cons.mp hpw).1 y hy
      have h2 := hmem y (List.mem_cons.mpr (Or.inr hy))
      omega
    have := ih (x + 1) b (List.pairwise_cons.mp hpw).2 hxs
    simp only [List.length_cons]
    omega

/-- Under the chain of strictly increasing decoded pairs, at most 4096 of
the produced IDs decode to any single millisecond. -/
theorem count_per_ms (ids : List Int) (T : Int)
    (hchain : List.Chain' (fun i j => pairLt (decodePair i) (decodePair j)) ids)
    (hbound : ∀ i ∈ ids, 0 ≤ decodeSequence i ∧ decodeSequence i ≤ 4095) :
    (ids.filter fun i => decide (decodeTimestamp i = T)).length ≤ 4096 := by
  have hpw : List.Pairwise (fun i j => pairLt (decodePair i) (decodePair j))
      ids := List.chain'_iff_pairwise.mp hchain
  have hpwf := hpw.filter (fun i => decide (decodeTimestamp i = T))
  have hpws : List.Pairwise (fun i j => decodeSequence i < decodeSequence j)
      (ids.filter fun i => decide (decodeTimestamp i = T)) := by
    refine hpwf.imp_of_mem ?_
    intro a b ha hb hab
    have hTa : decodeTimestamp a = T := by
      have := (List.mem_filter.mp ha).2
      simpa using this
    have hTb : decodeTimestamp b = T := by
      have := (List.mem_filter.mp hb).2
      simpa using this
    unfold pairLt decodePair at hab
    simp only at hab
    omega
  have hpmap : List.Pairwise (· < ·)
      ((ids.filter fun i => decide (decodeTimestamp i = T)).map
        decodeSequence) := List.pairwise_map.mpr hpws
  have hmemb : ∀ x ∈ (ids.filter fun i => decide (decodeTimestamp i = T)).map
      decodeSequence, 0 ≤ x ∧ x < 4096 := by
    intro x hx
    obtain ⟨i, hi, rfl⟩ := List.mem_map.mp hx
    have := hbound i (List.mem_of_mem_filter hi)
    omega
  have := pairwise_lt_length_le _ 0 4096 hpmap hmemb
  simpa using this

theorem Epoch_pos : 0 < Epoch := by norm_num [Epoch]

theorem NewNode_ok (dc w : Int) (node : Node)
    (h : NewNode dc w = Except.ok node) :
    node.datacenterID = dc ∧ node.workerID = w ∧ node.sequence = 0
    ∧ node.lastTimestamp = 0 ∧ 0 ≤ dc ∧ dc ≤ 31 ∧ 0 ≤ w ∧ w ≤ 31 := by
  unfold NewNode at h
  have hmd : maxDatacenterID = 31 := by norm_num [maxDatacenterID, datacenterBits]
  have hmw : maxWorkerID = 31 := by norm_num [maxWorkerID, workerBits]
  rw [hmd, hmw] at h
  split_ifs at h with hc1 hc2
  simp only [Except.ok.injEq] at h
  subst h
  refine ⟨rfl, rfl, rfl, rfl, ?_, ?_, ?_, ?_⟩ <;> omega

/-! ### Claims -/

/-- C1: for a single node and any sequence of successful local `Generate`
calls under a non-decreasing clock (readings inside the representable 41-bit
window), the decoded `(timestamp, sequence)` pairs of successive successful
calls are lexicographically strictly increasing, and at most 4096 IDs decode
to any single millisecond. -/
theorem C1_local_ids_strictly_increasing (dc w : Int) (node nodeF : Node)
    (n : Nat) (readings ids restF : List Int)
    (hnew : NewNode dc w = Except.ok node)
    (hch : readings.Chain' (· ≤ ·))
    (hwin : ∀ x ∈ readings, Epoch ≤ x ∧ x < Epoch + 2 ^ 41)
    (hrun : runLocal n node readings = some (ids, nodeF, restF)) :
    List.Chain' (fun i j => pairLt (decodePair i) (decodePair j)) ids
    ∧ ∀ T, (ids.filter fun i => decide (decodeTimestamp i = T)).length
        ≤ 4096 := by
  obtain ⟨hdc, hwk, hseq, hlast, hd0, hd1, hw0, hw1⟩ := NewNode_ok dc w node hnew
  have hpos := Epoch_pos
  obtain ⟨hchain, -, hbound⟩ :=
    runLocal_invariant n node readings ids nodeF restF (by omega) (by omega)
      (by omega) (by omega) (by omega) (by omega) hch
      (fun x hx => ⟨by have := (hwin x hx).1; omega, (hwin x hx).1,
        (hwin x hx).2⟩) hrun
  exact ⟨hchain, fun T => count_per_ms ids T hchain hbound⟩

theorem C1_witness :
    (NewNode 1 1 = Except.ok (Node.mk 1 1 0 0)
      ∧ ([Epoch, Epoch] : List Int).Chain' (· ≤ ·)
      ∧ (∀ x ∈ ([Epoch, Epoch] : List Int), Epoch ≤ x ∧ x < Epoch + 2 ^ 41)
      ∧ runLocal 2 (Node.mk 1 1 0 0) [Epoch, Epoch]
          = some ([composeId Epoch 1 1 0, composeId Epoch 1 1 1],
              Node.mk 1 1 1 Epoch, []))
    ∧ (List.Chain' (fun i j => pairLt (decodePair i) (decodePair j))
          [composeId Epoch 1 1 0, composeId Epoch 1 1 1]
        ∧ ∀ T, (([composeId Epoch 1 1 0, composeId Epoch 1 1 1].filter
            fun i => decide (decodeTimestamp i = T)).length ≤ 4096)) := by
  have hnew : NewNode 1 1 = Except.ok (Node.mk 1 1 0 0) := rfl
  have hch : ([Epoch, Epoch] : List Int).Chain' (· ≤ ·) := by
    simp [List.chain'_cons]
  have hwin : ∀ x ∈ ([Epoch, Epoch] : List Int),
      Epoch ≤ x ∧ x < Epoch + 2 ^ 41 := by
    intro x hx
    simp only [List.mem_cons, List.not_mem_nil, or_false] at hx
    rcases hx with rfl | rfl
    · omega
    · omega
  have hrun : runLocal 2 (Node.mk 1 1 0 0) [Epoch, Epoch]
      = some ([composeId Epoch 1 1 0, composeId Epoch 1 1 1],
          Node.mk 1 1 1 Epoch, []) := by
    decide
  exact ⟨⟨hnew, hch, hwin, hrun⟩,
    C1_local_ids_strictly_increasing 1 1 (Node.mk 1 1 0 0)
      (Node.mk 1 1 1 Epoch) 2 [Epoch, Epoch]
      [composeId Epoch 1 1 0, composeId Epoch 1 1 1] [] hnew hch hwin hrun⟩

/-- C2: composing an ID from an in-range tuple and decoding it with the wire
contract recovers the tuple exactly, and re-encoding the decoded tuple
reproduces the ID (round-trip law). -/
theorem C2_roundtrip (t dc w s : Int)
    (ht0 : 0 ≤ t - Epoch) (ht1 : t - Epoch < 2 ^ 41)
    (hdc0 : 0 ≤ dc) (hdc1 : dc ≤ 31) (hw0 : 0 ≤ w) (hw1 : w ≤ 31)
    (hs0 : 0 ≤ s) (hs1 : s ≤ 4095) :
    decodeTimestamp (composeId t dc w s) = t
    ∧ decodeDatacenter (composeId t dc w s) = dc
    ∧ decodeWorker (composeId t dc w s) = w
    ∧ decodeSequence (composeId t dc w s) = s
    ∧ composeId (decodeTimestamp (composeId t dc w s))
        (decodeDatacenter (composeId t dc w s))
        (decodeWorker (composeId t dc w s))
        (decodeSequence (composeId t dc w s)) = composeId t dc w s := by
  obtain ⟨h1, h2, h3, h4⟩ := decode_composeId t dc w s (by omega) (by omega)
    hdc0 hdc1 hw0 hw1 hs0 hs1
  refine ⟨h1, h2, h3, h4, ?_⟩
  rw [h1, h2, h3, h4]

theorem C2_witness :
    ((0 : Int) ≤ (Epoch + 123) - Epoch ∧ (Epoch + 123) - Epoch < 2 ^ 41
      ∧ (0 : Int) ≤ 3 ∧ (3 : Int) ≤ 31 ∧ (0 : Int) ≤ 4 ∧ (4 : Int) ≤ 31
      ∧ (0 : Int) ≤ 5 ∧ (5 : Int) ≤ 4095)
    ∧ (decodeTimestamp (composeId (Epoch + 123) 3 4 5) = Epoch + 123
      ∧ decodeDatacenter (composeId (Epoch + 123) 3 4 5) = 3
      ∧ decodeWorker (composeId (Epoch + 123) 3 4 5) = 4
      ∧ decodeSequence (composeId (Epoch + 123) 3 4 5) = 5
      ∧ composeId (decodeTimestamp (composeId (Epoch + 123) 3 4 5))
          (decodeDatacenter (composeId (Epoch + 123) 3 4 5))
          (decodeWorker (composeId (Epoch + 123) 3 4 5))
          (decodeSequence (composeId (Epoch + 123) 3 4 5))
          = composeId (Epoch + 123) 3 4 5) :=
  ⟨⟨by omega, by omega, by omega, by omega, by omega, by omega, by omega,
      by omega⟩,
    C2_roundtrip (Epoch + 123) 3 4 5 (by omega) (by omega) (by omega)
      (by omega) (by omega) (by omega) (by omega) (by omega)⟩

/-- C3: if the clock reads strictly less than the stored `lastTimestamp`,
the local generation call fails with the clock-rollback error and the node
state is returned exactly unchanged. -/
theorem C3_clock_rollback_unchanged (node : Node) (t : Int) (rest : List Int)
    (h : t < node.lastTimestamp) :
    generateLocally node (t :: rest)
      = some (Except.error "clock rollback error", node, rest) :=
  generateLocally_rollback node t rest h

theorem C3_witness :
    ((3 : Int) < (Node.mk 1 2 7 5).lastTimestamp)
    ∧ generateLocally (Node.mk 1 2 7 5) [3]
      = some (Except.error "clock rollback error", Node.mk 1 2 7 5, []) :=
  ⟨by simp only; omega,
    C3_clock_rollback_unchanged (Node.mk 1 2 7 5) 3 [] (by simp only; omega)⟩

theorem waitNextMillis_pads :
    ∀ (pads : List Int) (last t0 t2 : Int) (rest2 : List Int),
      t0 ≤ last → (∀ x ∈ pads, x ≤ last) → last < t2 →
      waitNextMillis last t0 (pads ++ t2 :: rest2) = some (t2, rest2) := by
  intro pads
  induction pads with
  | nil =>
    intro last t0 t2 rest2 h0 _ h2
    unfold waitNextMillis
    rw [if_pos h0, List.nil_append]
    show waitNextMillis last t2 rest2 = some (t2, rest2)
    unfold waitNextMillis
    rw [if_neg (by omega)]
  | cons p ps ih =>
    intro last t0 t2 rest2 h0 hp h2
    unfold waitNextMillis
    rw [if_pos h0, List.cons_append]
    show waitNextMillis last p (ps ++ t2 :: rest2) = some (t2, rest2)
    exact ih last p t2 rest2 (hp p (List.mem_cons_self p ps))
      (fun x hx => hp x (List.mem_cons.mpr (Or.inr hx))) h2

/-- Running `j` further calls inside the same millisecond increments the
sequence by one per call, producing the consecutive sequence values. -/
theorem runLocal_const :
    ∀ (j : Nat) (dc wk sq lt : Int),
      0 ≤ sq → sq + (j : Int) ≤ 4095 →
      runLocal j (Node.mk dc wk sq lt) (List.replicate j lt)
        = some ((List.range j).map fun (i : Nat) =>
            composeId lt dc wk (sq + 1 + (i : Int)),
          Node.mk dc wk (sq + (j : Int)) lt, []) := by
  intro j
  induction j with
  | zero =>
    intro dc wk sq lt h1 h2
    simp only [List.replicate_zero, List.range_zero, List.map_nil,
      Nat.cast_zero, add_zero, runLocal]
  | succ j ih =>
    intro dc wk sq lt h1 h2
    have hnlt : ¬ (Node.mk dc wk sq lt).lastTimestamp
        < (Node.mk dc wk sq lt).lastTimestamp := by omega
    have hland : Int.land ((Node.mk dc wk sq lt).sequence + 1) maxSequence
        = sq + 1 := by
      show Int.land (sq + 1) maxSequence = sq + 1
      rw [int_land_maxSequence _ (by omega)]
      push_cast at h2
      omega
    have h3 : Int.land ((Node.mk dc wk sq lt).sequence + 1) maxSequence
        ≠ 0 := by
      rw [hland]
      omega
    have hg := generateLocally_same_ms (Node.mk dc wk sq lt) lt
      (List.replicate j lt) hnlt rfl h3
    rw [List.replicate_succ, runLocal]
    simp only [hg, hland]
    have ihx := ih dc wk (sq + 1) lt (by omega)
      (by push_cast; push_cast at h2; omega)
    simp only [ihx, Option.some.injEq, Prod.mk.injEq, List.range_succ_eq_map,
      List.map_cons, List.map_map, List.cons.injEq]
    refine ⟨⟨by norm_num, ?_⟩, ?_⟩
    · refine List.map_congr_left ?_
      intro i hi
      simp only [Function.comp_apply]
      congr 1
      push_cast
      ring
    · refine ⟨?_, trivial⟩
      congr 1
      push_cast
      ring

/-- C4: in local mode, a call in the same millisecond advances the sequence
to `(sequence + 1) mod 4096`; on wrap to 0 the call busy-waits past all
clock readings not exceeding `lastTimestamp` and returns sequence 0 with the
new timestamp; a call in a fresh millisecond resets the sequence to 0; and
4096 calls within one millisecond yield the sequence values 0..4095 in
order. -/
theorem C4_sequence_overflow_behavior :
    (∀ (node : Node) (t : Int) (rest : List Int),
        0 ≤ node.sequence → node.lastTimestamp = t →
        (node.sequence + 1) % 4096 ≠ 0 →
        generateLocally node (t :: rest)
          = some (Except.ok (composeId t node.datacenterID node.workerID
                ((node.sequence + 1) % 4096)),
              { node with
                sequence := (node.sequence + 1) % 4096
                lastTimestamp := t }, rest))
    ∧ (∀ (node : Node) (t t2 : Int) (pads rest2 : List Int),
        0 ≤ node.sequence → node.lastTimestamp = t →
        (node.sequence + 1) % 4096 = 0 →
        (∀ x ∈ pads, x ≤ t) → t < t2 →
        generateLocally node (t :: (pads ++ t2 :: rest2))
          = some (Except.ok (composeId t2 node.datacenterID node.workerID 0),
              { node with
                sequence := 0
                lastTimestamp := t2 }, rest2))
    ∧ (∀ (node : Node) (t : Int) (rest : List Int),
        node.lastTimestamp < t →
        generateLocally node (t :: rest)
          = some (Except.ok (composeId t node.datacenterID node.workerID 0),
              { node with
                sequence := 0
                lastTimestamp := t }, rest))
    ∧ (∀ (node : Node) (t : Int),
        node.lastTimestamp < t →
        runLocal 4096 node (List.replicate 4096 t)
          = some ((List.range 4096).map fun (i : Nat) =>
                composeId t node.datacenterID node.workerID (i : Int),
              { node with
                sequence := 4095
                lastTimestamp := t }, [])
        ∧ (Epoch ≤ t → t < Epoch + 2 ^ 41 → 0 ≤ node.datacenterID →
            node.datacenterID ≤ 31 → 0 ≤ node.workerID → node.workerID ≤ 31 →
            ((List.range 4096).map fun (i : Nat) =>
                composeId t node.datacenterID node.workerID (i : Int)).map
              decodeSequence = (List.range 4096).map fun (i : Nat) => (i : Int))) := by
  refine ⟨?_, ?_, ?_, ?_⟩
  · intro node t rest hs0 hlast hmod
    have hland : Int.land (node.sequence + 1) maxSequence
        = (node.sequence + 1) % 4096 := int_land_maxSequence _ (by omega)
    have h1 : ¬ t < node.lastTimestamp := by omega
    have h3 : Int.land (node.sequence + 1) maxSequence ≠ 0 := by
      rw [hland]
      exact hmod
    have hg := generateLocally_same_ms node t rest h1 hlast h3
    rw [hg, hland]
  · intro node t t2 pads rest2 hs0 hlast hmod hpads hlt
    have hland : Int.land (node.sequence + 1) maxSequence
        = (node.sequence + 1) % 4096 := int_land_maxSequence _ (by omega)
    have h1 : ¬ t < node.lastTimestamp := by omega
    have h3 : Int.land (node.sequence + 1) maxSequence = 0 := by
      rw [hland]
      exact hmod
    have hw : waitNextMillis node.lastTimestamp t (pads ++ t2 :: rest2)
        = some (t2, rest2) :=
      waitNextMillis_pads pads node.lastTimestamp t t2 rest2 (by omega)
        (by intro x hx; have := hpads x hx; omega) (by omega)
    exact generateLocally_overflow node t t2 (pads ++ t2 :: rest2) rest2 h1
      hlast h3 hw
  · intro node t rest hlt
    exact generateLocally_new_ms node t rest (by omega) (by omega)
  · intro node t hlt
    have hfirst := generateLocally_new_ms node t (List.replicate 4095 t)
      (by omega) (by omega)
    have hmain : runLocal 4096 node (List.replicate 4096 t)
        = some ((List.range 4096).map fun (i : Nat) =>
            composeId t node.datacenterID node.workerID (i : Int),
          { node with
            sequence := 4095
            lastTimestamp := t }, []) := by
      rw [show (4096 : Nat) = 4095 + 1 from rfl, List.replicate_succ, runLocal]
      simp only [hfirst]
      have ihx := runLocal_const 4095 node.datacenterID node.workerID 0 t
        (by omega) (by norm_num)
      rw [ihx]
      conv_rhs => rw [List.range_succ_eq_map, List.map_cons, List.map_map]
      simp only [Option.some.injEq, Prod.mk.injEq, List.cons.injEq]
      refine ⟨⟨by norm_num, ?_⟩, ?_, trivial⟩
      · refine List.map_congr_left ?_
        intro i hi
        simp only [Function.comp_apply]
        congr 1
        push_cast
        ring
      · congr 1
    refine ⟨hmain, ?_⟩
    intro hw1 hw2 hd0 hd1 hv0 hv1
    rw [List.map_map]
    refine List.map_congr_left ?_
    intro i hi
    have hir : i < 4096 := List.mem_range.mp hi
    have hile : (i : Int) ≤ 4095 := by omega
    have hige : (0 : Int) ≤ (i : Int) := by omega
    simp only [Function.comp_apply]
    exact (decode_composeId t node.datacenterID node.workerID (i : Int) hw1
      hw2 hd0 hd1 hv0 hv1 hige hile).2.2.2

theorem C4_witness :
    ((0 : Int) ≤ 5 ∧ ((5 : Int) + 1) % 4096 ≠ 0
      ∧ ((4095 : Int) + 1) % 4096 = 0 ∧ (100 : Int) < 101 ∧ (0 : Int) < Epoch)
    ∧ generateLocally (Node.mk 1 1 5 100) [100]
        = some (Except.ok (composeId 100 1 1 (((5 : Int) + 1) % 4096)),
            Node.mk 1 1 (((5 : Int) + 1) % 4096) 100, [])
    ∧ generateLocally (Node.mk 1 1 4095 100) [100, 100, 101]
        = some (Except.ok (composeId 101 1 1 0), Node.mk 1 1 0 101, [])
    ∧ generateLocally (Node.mk 1 1 7 100) [101]
        = some (Except.ok (composeId 101 1 1 0), Node.mk 1 1 0 101, [])
    ∧ runLocal 4096 (Node.mk 1 1 3 0) (List.replicate 4096 Epoch)
        = some ((List.range 4096).map fun (i : Nat) =>
            composeId Epoch 1 1 (i : Int), Node.mk 1 1 4095 Epoch, [])
    ∧ ((List.range 4096).map fun (i : Nat) =>
          composeId Epoch 1 1 (i : Int)).map decodeSequence
        = (List.range 4096).map fun (i : Nat) => (i : Int) := by
  have hE : (0 : Int) < Epoch := by norm_num [Epoch]
  have hwin : Epoch < Epoch + 2 ^ 41 := by omega
  refine ⟨⟨by norm_num, by decide, by decide, by norm_num, hE⟩, ?_, ?_, ?_,
    ?_, ?_⟩
  · exact C4_sequence_overflow_behavior.1 (Node.mk 1 1 5 100) 100 []
      (by norm_num) rfl (by decide)
  · exact C4_sequence_overflow_behavior.2.1 (Node.mk 1 1 4095 100) 100 101
      [100] [] (by norm_num) rfl (by decide)
      (by intro x hx; simp only [List.mem_singleton] at hx; omega)
      (by norm_num)
  · exact C4_sequence_overflow_behavior.2.2.1 (Node.mk 1 1 7 100) 101 []
      (by norm_num)
  · exact (C4_sequence_overflow_behavior.2.2.2 (Node.mk 1 1 3 0) Epoch hE).1
  · exact (C4_sequence_overflow_behavior.2.2.2 (Node.mk 1 1 3 0) Epoch hE).2
      le_rfl hwin (by norm_num) (by norm_num) (by norm_num) (by norm_num)

/-- C5: `Build` resolves configuration with the exact priority: both IDs
non-zero means they are used verbatim with no store increment ever issued
(even with a client configured); otherwise a present client triggers
store-based auto-allocation; otherwise the fixed default identity `(1, 1)`
is used. -/
theorem C5_build_priority (builder : RedisSnowflakeBuilder)
    (incrResponses : List (Except String Int)) :
    (builder.datacenterID ≠ 0 → builder.workerID ≠ 0 →
      Build builder incrResponses
        = some (createInstance builder builder.datacenterID builder.workerID
            builder.hasClient, []))
    ∧ ((builder.datacenterID = 0 ∨ builder.workerID = 0) →
        builder.hasClient = true →
        Build builder incrResponses
          = createRedisAllocatedInstance builder incrResponses)
    ∧ ((builder.datacenterID = 0 ∨ builder.workerID = 0) →
        builder.hasClient = false →
        Build builder incrResponses
          = some (createInstance builder DefaultDatacenterID DefaultWorkerID
              false, [])) := by
  refine ⟨?_, ?_, ?_⟩
  · intro h1 h2
    have hz1 : builder.datacenterID ≠ ZeroValue := by
      simpa [ZeroValue] using h1
    have hz2 : builder.workerID ≠ ZeroValue := by
      simpa [ZeroValue] using h2
    cases hc : builder.hasClient
    · simp [Build, determineConfiguration, hz1, hz2, hc, createLocalInstance]
    · simp [Build, determineConfiguration, hz1, hz2, hc,
        createInstanceWithClient]
  · intro hzero hc
    have hcond : ¬ (builder.datacenterID ≠ ZeroValue
        ∧ builder.workerID ≠ ZeroValue) := by
      simp only [ZeroValue]
      rcases hzero with h | h
      · intro hx
        exact hx.1 h
      · intro hx
        exact hx.2 h
    simp [Build, determineConfiguration, hcond, hc]
  · intro hzero hc
    have hcond : ¬ (builder.datacenterID ≠ ZeroValue
        ∧ builder.workerID ≠ ZeroValue) := by
      simp only [ZeroValue]
      rcases hzero with h | h
      · intro hx
        exact hx.1 h
      · intro hx
        exact hx.2 h
    simp [Build, determineConfiguration, hcond, hc, createLocalInstance]

theorem C5_witness :
    (((RedisSnowflakeBuilder.mk true 1 1 false).datacenterID ≠ 0
        ∧ (RedisSnowflakeBuilder.mk true 1 1 false).workerID ≠ 0)
      ∧ ((RedisSnowflakeBuilder.mk true 0 0 false).datacenterID = 0
          ∨ (RedisSnowflakeBuilder.mk true 0 0 false).workerID = 0)
      ∧ ((RedisSnowflakeBuilder.mk false 0 5 false).datacenterID = 0
          ∨ (RedisSnowflakeBuilder.mk false 0 5 false).workerID = 0))
    ∧ Build (RedisSnowflakeBuilder.mk true 1 1 false) [Except.ok 37]
        = some (createInstance (RedisSnowflakeBuilder.mk true 1 1 false) 1 1
            true, [])
    ∧ Build (RedisSnowflakeBuilder.mk true 0 0 false) [Except.ok 37]
        = createRedisAllocatedInstance
            (RedisSnowflakeBuilder.mk true 0 0 false) [Except.ok 37]
    ∧ Build (RedisSnowflakeBuilder.mk false 0 5 false) [Except.ok 37]
        = some (createInstance (RedisSnowflakeBuilder.mk false 0 5 false)
            DefaultDatacenterID DefaultWorkerID false, []) :=
  ⟨⟨⟨by norm_num, by norm_num⟩, Or.inl rfl, Or.inl rfl⟩,
    (C5_build_priority (RedisSnowflakeBuilder.mk true 1 1 false)
        [Except.ok 37]).1 (by norm_num) (by norm_num),
    (C5_build_priority (RedisSnowflakeBuilder.mk true 0 0 false)
        [Except.ok 37]).2.1 (Or.inl rfl) rfl,
    (C5_build_priority (RedisSnowflakeBuilder.mk false 0 5 false)
        [Except.ok 37]).2.2 (Or.inl rfl) rfl⟩

/-- C6: auto-allocation issues exactly two `Incr` calls, datacenter counter
first then worker counter, reduces each result modulo 32 (raw 37 yields 5),
and aborts the whole construction with an allocation error if either call
fails. -/
theorem C6_allocation (builder : RedisSnowflakeBuilder) (e : String)
    (n1 n2 : Int) (rest : List (Except String Int)) :
    createRedisAllocatedInstance builder (Except.error e :: rest)
      = some (Except.error ("failed to get datacenter ID from Redis: " ++ e),
          [StoreCall.incr dcKey])
    ∧ createRedisAllocatedInstance builder
        (Except.ok n1 :: Except.error e :: rest)
      = some (Except.error ("failed to get worker ID from Redis: " ++ e),
          [StoreCall.incr dcKey, StoreCall.incr workerKey])
    ∧ createRedisAllocatedInstance builder (Except.ok n1 :: Except.ok n2 :: rest)
      = some (createInstance builder (Int.tmod n1 32) (Int.tmod n2 32) true,
          [StoreCall.incr dcKey, StoreCall.incr workerKey])
    ∧ createRedisAllocatedInstance builder (Except.ok 37 :: Except.ok 1 :: rest)
      = some (createInstance builder 5 1 true,
          [StoreCall.incr dcKey, StoreCall.incr workerKey]) :=
  ⟨rfl, rfl, rfl, rfl⟩

/-- The strict loop never issues more `SetNX` calls than it has fuel. -/
theorem strictLoop_calls_le (node : Node) :
    ∀ (fuel attempt : Nat) (readings : List Int)
      (responses : List (Except String Bool)) (r : Except String Int)
      (calls : List StoreCall),
      strictLoop node attempt fuel readings responses = some (r, calls) →
      calls.length ≤ fuel := by
  intro fuel
  induction fuel with
  | zero =>
    intro attempt readings responses r calls h
    obtain ⟨-, h2⟩ :
        Except.error "failed to generate unique ID after 10 attempts" = r
        ∧ ([] : List StoreCall) = calls := by simpa [strictLoop] using h
    rw [← h2]
    simp
  | succ fuel ih =>
    intro attempt readings responses r calls h
    cases readings with
    | nil =>
      cases responses with
      | nil =>
        rw [strictLoop] at h
        · simp at h
        · intro a b c d h1 h2
          simp at h1
      | cons resp restP =>
        rw [strictLoop] at h
        · simp at h
        · intro a b c d h1 h2
          simp at h1
    | cons t restR =>
      cases responses with
      | nil =>
        rw [strictLoop] at h
        · simp at h
        · intro a b c d h1 h2
          simp at h2
      | cons resp restP =>
        rcases resp with e | b
        · rw [strictLoop] at h
          obtain ⟨-, h2⟩ :
              Except.error ("failed to acquire lock for ID generation: " ++ e)
                = r
              ∧ [StoreCall.setNX (strictKey (candidateId node t attempt))]
                = calls := by simpa using h
          rw [← h2]
          simp
        · rcases b with _ | _
          · rcases hrec : strictLoop node (attempt + 1) fuel restR restP
              with _ | ⟨r2, calls2⟩
            · rw [strictLoop] at h
              simp only [hrec] at h
              exact absurd h (by simp)
            · rw [strictLoop] at h
              simp only [hrec, Option.some.injEq, Prod.mk.injEq] at h
              obtain ⟨-, h2⟩ := h
              have := ih (attempt + 1) restR restP r2 calls2 hrec
              rw [← h2]
              simp only [List.length_cons]
              omega
          · rw [strictLoop] at h
            obtain ⟨-, h2⟩ :
                Except.ok (candidateId node t attempt) = r
                ∧ [StoreCall.setNX (strictKey (candidateId node t attempt))]
                  = calls := by simpa using h
            rw [← h2]
            simp

theorem contentionCalls_length (node : Node) :
    ∀ (attempt : Nat) (l : List Int),
      (contentionCalls node attempt l).length = l.length := by
  intro attempt l
  induction l generalizing attempt with
  | nil => rfl
  | cons t rest ih =>
    rw [contentionCalls, List.length_cons, List.length_cons, ih]

/-- Skipping a prefix of `k` contention answers advances the strict loop by
`k` attempts, logging one `SetNX` call per skipped attempt. -/
theorem strictLoop_skip_false :
    ∀ (k attempt fuel : Nat) (node : Node) (readings : List Int)
      (responses : List (Except String Bool)),
      k ≤ fuel → k ≤ readings.length →
      strictLoop node attempt fuel readings
          (List.replicate k (Except.ok false) ++ responses)
        = match strictLoop node (attempt + k) (fuel - k) (readings.drop k)
              responses with
          | some (r, calls) =>
            some (r, contentionCalls node attempt (readings.take k) ++ calls)
          | none => none := by
  intro k
  induction k with
  | zero =>
    intro attempt fuel node readings responses _ _
    rcases h : strictLoop node (attempt + 0) (fuel - 0) (readings.drop 0)
        responses with _ | ⟨r, calls⟩
    · simp only [Nat.add_zero, Nat.sub_zero, List.drop_zero] at h
      simp [h]
    · simp only [Nat.add_zero, Nat.sub_zero, List.drop_zero] at h
      simp [h, contentionCalls]
  | succ k ih =>
    intro attempt fuel node readings responses hk hlen
    cases readings with
    | nil => simp at hlen
    | cons t restR =>
      cases fuel with
      | zero => omega
      | succ f =>
        rw [List.replicate_succ, List.cons_append, strictLoop,
          show attempt + (k + 1) = attempt + 1 + k from by omega,
          show f + 1 - (k + 1) = f - k from by omega,
          List.drop_succ_cons, List.take_succ_cons]
        have ihx := ih (attempt + 1) f node restR responses (by omega)
          (by simpa using hlen)
        simp only [ihx]
        rcases hi : strictLoop node (attempt + 1 + k) (f - k)
            (restR.drop k) responses with _ | ⟨r, calls⟩
        · simp [hi]
        · simp [hi, contentionCalls]

/-- C7: strict-mode generation makes at most 10 claim attempts, the
`attempt`-th candidate carrying sequence field `(now + attempt) mod 4096`;
permanent contention consumes exactly 10 attempts and ends in the
generation-exhausted error; a store error aborts immediately with that
error after its own attempt; a successful claim returns its candidate
immediately. -/
theorem C7_strict_mode_attempts (node : Node) (e : String) (k : Nat) :
    (∀ (readings : List Int), readings.length = 10 →
      generateWithRedisAssistance node readings
          (List.replicate 10 (Except.ok false))
        = some (Except.error "failed to generate unique ID after 10 attempts",
            contentionCalls node 0 readings)
      ∧ (contentionCalls node 0 readings).length = 10)
    ∧ (∀ (pre post : List Int) (t : Int)
        (responses : List (Except String Bool)), pre.length = k →
        k + 1 ≤ 10 →
        generateWithRedisAssistance node (pre ++ t :: post)
            (List.replicate k (Except.ok false)
              ++ Except.error e :: responses)
          = some (Except.error
                ("failed to acquire lock for ID generation: " ++ e),
              contentionCalls node 0 pre
                ++ [StoreCall.setNX (strictKey (candidateId node t k))])
        ∧ (contentionCalls node 0 pre
            ++ [StoreCall.setNX (strictKey (candidateId node t k))]).length
          = k + 1)
    ∧ (∀ (pre post : List Int) (t : Int)
        (responses : List (Except String Bool)), pre.length = k →
        k + 1 ≤ 10 →
        generateWithRedisAssistance node (pre ++ t :: post)
            (List.replicate k (Except.ok false) ++ Except.ok true :: responses)
          = some (Except.ok (candidateId node t k),
              contentionCalls node 0 pre
                ++ [StoreCall.setNX (strictKey (candidateId node t k))]))
    ∧ (∀ (t : Int) (a : Nat), Epoch ≤ t → t < Epoch + 2 ^ 41 →
        0 ≤ node.datacenterID → node.datacenterID ≤ 31 →
        0 ≤ node.workerID → node.workerID ≤ 31 →
        decodeSequence (candidateId node t a) = (t + (a : Int)) % 4096)
    ∧ (∀ (readings : List Int) (responses : List (Except String Bool))
        (r : Except String Int) (calls : List StoreCall),
        generateWithRedisAssistance node readings responses
          = some (r, calls) →
        calls.length ≤ 10) := by
  refine ⟨?_, ?_, ?_, ?_, ?_⟩
  · intro readings hlen
    have hskip := strictLoop_skip_false 10 0 10 node readings []
      (le_refl 10) (by omega)
    rw [List.append_nil] at hskip
    have h0 : strictLoop node (0 + 10) (10 - 10) (readings.drop 10) []
        = some (Except.error "failed to generate unique ID after 10 attempts",
            []) := rfl
    rw [h0] at hskip
    simp only [List.append_nil,
      List.take_of_length_le (le_of_eq hlen)] at hskip
    unfold generateWithRedisAssistance maxRetries
    rw [hskip]
    exact ⟨rfl, by rw [contentionCalls_length node 0 readings, hlen]⟩
  · intro pre post t responses hpre hk
    obtain ⟨m, hm⟩ : ∃ m, 10 - k = m + 1 := ⟨9 - k, by omega⟩
    have hskip := strictLoop_skip_false k 0 10 node (pre ++ t :: post)
      (Except.error e :: responses) (by omega)
      (by rw [List.length_append]; omega)
    rw [← hpre, List.drop_left, List.take_left, hpre, hm] at hskip
    have hstep : strictLoop node (0 + k) (m + 1) (t :: post)
        (Except.error e :: responses)
      = some (Except.error
            ("failed to acquire lock for ID generation: " ++ e),
          [StoreCall.setNX (strictKey (candidateId node t (0 + k)))]) := by
      rw [strictLoop]
    rw [hstep, Nat.zero_add] at hskip
    simp only at hskip
    unfold generateWithRedisAssistance maxRetries
    rw [hskip]
    refine ⟨rfl, ?_⟩
    rw [List.length_append, contentionCalls_length node 0 pre, hpre]
    rfl
  · intro pre post t responses hpre hk
    obtain ⟨m, hm⟩ : ∃ m, 10 - k = m + 1 := ⟨9 - k, by omega⟩
    have hskip := strictLoop_skip_false k 0 10 node (pre ++ t :: post)
      (Except.ok true :: responses) (by omega)
      (by rw [List.length_append]; omega)
    rw [← hpre, List.drop_left, List.take_left, hpre, hm] at hskip
    have hstep : strictLoop node (0 + k) (m + 1) (t :: post)
        (Except.ok true :: responses)
      = some (Except.ok (candidateId node t (0 + k)),
          [StoreCall.setNX (strictKey (candidateId node t (0 + k)))]) := by
      rw [strictLoop]
    rw [hstep, Nat.zero_add] at hskip
    simp only at hskip
    unfold generateWithRedisAssistance maxRetries
    rw [hskip]
  · intro t a hw1 hw2 hd0 hd1 hv0 hv1
    have hE := Epoch_pos
    have hland : Int.land (t + (a : Int)) maxSequence
        = (t + (a : Int)) % 4096 := by
      refine int_land_maxSequence _ ?_
      have : (0 : Int) ≤ (a : Int) := by positivity
      omega
    unfold candidateId
    rw [hland]
    exact (decode_composeId t node.datacenterID node.workerID
      ((t + (a : Int)) % 4096) hw1 hw2 hd0 hd1 hv0 hv1 (by omega)
      (by omega)).2.2.2
  · intro readings responses r calls h
    exact strictLoop_calls_le node maxRetries 0 readings responses r calls h

theorem C7_witness :
    ((List.replicate 10 Epoch : List Int).length = 10
      ∧ ([] : List Int).length = 0 ∧ 0 + 1 ≤ 10 ∧ Epoch ≤ Epoch
      ∧ Epoch < Epoch + 2 ^ 41)
    ∧ (generateWithRedisAssistance (Node.mk 1 1 0 0)
          (List.replicate 10 Epoch) (List.replicate 10 (Except.ok false))
        = some (Except.error "failed to generate unique ID after 10 attempts",
            contentionCalls (Node.mk 1 1 0 0) 0 (List.replicate 10 Epoch))
      ∧ (contentionCalls (Node.mk 1 1 0 0) 0
          (List.replicate 10 Epoch)).length = 10)
    ∧ generateWithRedisAssistance (Node.mk 1 1 0 0) [Epoch]
        (Except.error "boom" :: [])
      = some (Except.error
            ("failed to acquire lock for ID generation: " ++ "boom"),
          [] ++ [StoreCall.setNX
            (strictKey (candidateId (Node.mk 1 1 0 0) Epoch 0))])
    ∧ generateWithRedisAssistance (Node.mk 1 1 0 0) [Epoch]
        (Except.ok true :: [])
      = some (Except.ok (candidateId (Node.mk 1 1 0 0) Epoch 0),
          [] ++ [StoreCall.setNX
            (strictKey (candidateId (Node.mk 1 1 0 0) Epoch 0))])
    ∧ decodeSequence (candidateId (Node.mk 1 1 0 0) Epoch 3)
      = (Epoch + (3 : Int)) % 4096
    ∧ ([StoreCall.setNX
        (strictKey (candidateId (Node.mk 1 1 0 0) Epoch 0))]).length
      ≤ 10 := by
  have hlen : (List.replicate 10 Epoch : List Int).length = 10 := by simp
  refine ⟨⟨hlen, rfl, by omega, le_rfl, by omega⟩, ?_, ?_, ?_, ?_, ?_⟩
  · exact (C7_strict_mode_attempts (Node.mk 1 1 0 0) "boom" 0).1
      (List.replicate 10 Epoch) hlen
  · have h := (C7_strict_mode_attempts (Node.mk 1 1 0 0) "boom" 0).2.1
      [] [] Epoch [] rfl (by omega)
    simpa using h.1
  · have h := (C7_strict_mode_attempts (Node.mk 1 1 0 0) "boom" 0).2.2.1
      [] [] Epoch [] rfl (by omega)
    simpa using h
  · exact (C7_strict_mode_attempts (Node.mk 1 1 0 0) "boom" 0).2.2.2.1 Epoch 3
      le_rfl (by omega) (by norm_num) (by norm_num) (by norm_num) (by norm_num)
  · exact (C7_strict_mode_attempts (Node.mk 1 1 0 0) "boom" 0).2.2.2.2
      [Epoch] [Except.ok true]
      (Except.ok (candidateId (Node.mk 1 1 0 0) Epoch 0))
      [StoreCall.setNX (strictKey (candidateId (Node.mk 1 1 0 0) Epoch 0))]
      rfl

/-- C8: `Generate` takes the store-assisted strict path exactly when strict
mode is enabled and a store client is present; in every other configuration,
including strict mode with no client, it silently delegates to local
generation. -/
theorem C8_generate_routing (rs : RedisSnowflake) (readings : List Int)
    (responses : List (Except String Bool)) :
    (rs.strictMode = true → rs.hasRedisClient = true →
      Generate rs readings responses
        = match generateWithRedisAssistance rs.node readings responses with
          | some (r, calls) => some (r, rs, calls)
          | none => none)
    ∧ (¬ (rs.strictMode = true ∧ rs.hasRedisClient = true) →
      Generate rs readings responses
        = match generateLocally rs.node readings with
          | some (r, node2, _) =>
            some (r, { rs with node := node2 }, ([] : List StoreCall))
          | none => none)
    ∧ (rs.strictMode = true → rs.hasRedisClient = false →
      Generate rs readings responses
        = match generateLocally rs.node readings with
          | some (r, node2, _) =>
            some (r, { rs with node := node2 }, ([] : List StoreCall))
          | none => none) := by
  refine ⟨?_, ?_, ?_⟩
  · intro hs hc
    unfold Generate
    rw [hs, hc]
    rfl
  · intro hn
    unfold Generate
    have hfalse : (rs.strictMode && rs.hasRedisClient) = false := by
      rcases hb : rs.strictMode with _ | _
      · simp
      · rcases hb2 : rs.hasRedisClient with _ | _
        · simp
        · exact absurd ⟨hb, hb2⟩ hn
    rw [hfalse]
    rfl
  · intro hs hc
    unfold Generate
    rw [hs, hc]
    rfl

theorem C8_witness :
    ((RedisSnowflake.mk (Node.mk 1 1 0 0) true 0 true).strictMode = true
      ∧ (RedisSnowflake.mk (Node.mk 1 1 0 0) true 0 true).hasRedisClient
          = true
      ∧ (RedisSnowflake.mk (Node.mk 1 1 0 0) false 0 true).strictMode = true
      ∧ (RedisSnowflake.mk (Node.mk 1 1 0 0) false 0 true).hasRedisClient
          = false)
    ∧ Generate (RedisSnowflake.mk (Node.mk 1 1 0 0) true 0 true) [Epoch]
        [Except.ok true]
      = (match generateWithRedisAssistance (Node.mk 1 1 0 0) [Epoch]
            [Except.ok true] with
         | some (r, calls) =>
           some (r, RedisSnowflake.mk (Node.mk 1 1 0 0) true 0 true, calls)
         | none => none)
    ∧ Generate (RedisSnowflake.mk (Node.mk 1 1 0 0) false 0 true) [Epoch]
        [Except.ok true]
      = (match generateLocally (Node.mk 1 1 0 0) [Epoch] with
         | some (r, node2, _) =>
           some (r, RedisSnowflake.mk node2 false 0 true,
             ([] : List StoreCall))
         | none => none) := by
  refine ⟨⟨rfl, rfl, rfl, rfl⟩, ?_, ?_⟩
  · exact (C8_generate_routing
      (RedisSnowflake.mk (Node.mk 1 1 0 0) true 0 true) [Epoch]
      [Except.ok true]).1 rfl rfl
  · exact (C8_generate_routing
      (RedisSnowflake.mk (Node.mk 1 1 0 0) false 0 true) [Epoch]
      [Except.ok true]).2.2 rfl rfl

/-- C9: a strict-mode `Generate` call, whatever its outcome and store
responses, leaves the node's generation state (`lastTimestamp`, `sequence`)
exactly as it was before the call. -/
theorem C9_strict_mode_frame (rs rs2 : RedisSnowflake) (readings : List Int)
    (responses : List (Except String Bool)) (r : Except String Int)
    (calls : List StoreCall)
    (hs : rs.strictMode = true) (hc : rs.hasRedisClient = true)
    (h : Generate rs readings responses = some (r, rs2, calls)) :
    rs2.node.lastTimestamp = rs.node.lastTimestamp
    ∧ rs2.node.sequence = rs.node.sequence := by
  unfold Generate at h
  rw [hs, hc] at h
  simp only [Bool.and_self, if_true] at h
  rcases hg : generateWithRedisAssistance rs.node readings responses
    with _ | ⟨r2, calls2⟩
  · rw [hg] at h
    exact absurd h (by simp)
  · rw [hg] at h
    simp only [Option.some.injEq, Prod.mk.injEq] at h
    obtain ⟨-, hrs, -⟩ := h
    rw [← hrs]
    exact ⟨rfl, rfl⟩

theorem C9_witness :
    ((RedisSnowflake.mk (Node.mk 1 1 9 77) true 0 true).strictMode = true
      ∧ (RedisSnowflake.mk (Node.mk 1 1 9 77) true 0 true).hasRedisClient
          = true
      ∧ Generate (RedisSnowflake.mk (Node.mk 1 1 9 77) true 0 true)
          [Epoch + 5] [Except.ok true]
        = some (Except.ok (candidateId (Node.mk 1 1 9 77) (Epoch + 5) 0),
            RedisSnowflake.mk (Node.mk 1 1 9 77) true 0 true,
            [StoreCall.setNX
              (strictKey (candidateId (Node.mk 1 1 9 77) (Epoch + 5) 0))]))
    ∧ ((RedisSnowflake.mk (Node.mk 1 1 9 77) true 0 true).node.lastTimestamp
        = (RedisSnowflake.mk (Node.mk 1 1 9 77) true 0 true).node.lastTimestamp
      ∧ (RedisSnowflake.mk (Node.mk 1 1 9 77) true 0 true).node.sequence
        = (RedisSnowflake.mk (Node.mk 1 1 9 77) true 0 true).node.sequence) :=
  ⟨⟨rfl, rfl, rfl⟩,
    C9_strict_mode_frame (RedisSnowflake.mk (Node.mk 1 1 9 77) true 0 true)
      (RedisSnowflake.mk (Node.mk 1 1 9 77) true 0 true) [Epoch + 5]
      [Except.ok true] (Except.ok (candidateId (Node.mk 1 1 9 77) (Epoch + 5) 0))
      [StoreCall.setNX (strictKey (candidateId (Node.mk 1 1 9 77) (Epoch + 5) 0))]
      rfl rfl rfl⟩

/-- The sequence field of an ID whose lowest bit is set decodes to a nonzero
value (two's-complement bit argument; holds even for negative IDs). -/
theorem decodeSequence_lor_one_ne_zero (x : Int) :
    decodeSequence (Int.lor x 1) ≠ 0 := by
  intro hzero
  have h1 : Int.testBit (decodeSequence (Int.lor x 1)) 0 = true := by
    unfold decodeSequence
    rw [Int.testBit_land, Int.testBit_lor]
    have e1 : Int.testBit 1 0 = true := by decide
    have e2 : Int.testBit 4095 0 = true := by decide
    rw [e1, e2]
    simp
  rw [hzero] at h1
  exact absurd h1 (by decide)

/-- C10 (amended): a freshly constructed node has `lastTimestamp = 0` and
`sequence = 0`, so the first local call under a non-negative clock reading
never reaches the rollback branch and always succeeds; for a strictly
positive reading the ID is composed with sequence 0 (decoding to 0 inside
the representable window), while at reading exactly 0 the call succeeds but
the ID is composed with sequence 1, whose decoded sequence field is
nonzero. -/
theorem C10_first_call (dc w t : Int) (node : Node) (rest : List Int)
    (hnew : NewNode dc w = Except.ok node) (ht : 0 ≤ t) :
    node.lastTimestamp = 0 ∧ node.sequence = 0
    ∧ (0 < t →
        generateLocally node (t :: rest)
          = some (Except.ok (composeId t dc w 0), Node.mk dc w 0 t, rest)
        ∧ (Epoch ≤ t → t < Epoch + 2 ^ 41 →
            decodeSequence (composeId t dc w 0) = 0))
    ∧ (t = 0 →
        generateLocally node (t :: rest)
          = some (Except.ok (composeId 0 dc w 1), Node.mk dc w 1 0, rest)
        ∧ decodeSequence (composeId 0 dc w 1) ≠ 0) := by
  obtain ⟨hdc, hwk, hseq, hlast, hd0, hd1, hw0, hw1⟩ := NewNode_ok dc w node hnew
  have hnode : node = Node.mk dc w 0 0 := by
    cases node
    simp only at hdc hwk hseq hlast
    rw [hdc, hwk, hseq, hlast]
  subst hnode
  refine ⟨rfl, rfl, ?_, ?_⟩
  · intro hpos
    constructor
    · have hg := generateLocally_new_ms (Node.mk dc w 0 0) t rest
        (by simp only; omega) (by simp only; omega)
      simpa using hg
    · intro hwin1 hwin2
      exact (decode_composeId t dc w 0 hwin1 hwin2 hd0 hd1 hw0 hw1 le_rfl
        (by omega)).2.2.2
  · intro hzero
    subst hzero
    constructor
    · have hl : Int.land ((Node.mk dc w 0 0).sequence + 1) maxSequence
          = 1 := by
        show Int.land (0 + 1) maxSequence = 1
        rw [int_land_maxSequence _ (by omega)]
        norm_num
      have hg := generateLocally_same_ms (Node.mk dc w 0 0) 0 rest
        (by simp only; omega) rfl (by rw [hl]; omega)
      rw [hl] at hg
      simpa using hg
    · show decodeSequence (composeId 0 dc w 1) ≠ 0
      unfold composeId
      exact decodeSequence_lor_one_ne_zero _

/-- C10 counterexample: at the non-negative clock reading 0 the first call
on a fresh node succeeds but its ID carries sequence 1, not 0. -/
theorem C10_counterexample :
    (0 : Int) ≤ 0
    ∧ NewNode 1 1 = Except.ok (Node.mk 1 1 0 0)
    ∧ generateLocally (Node.mk 1 1 0 0) [0]
        = some (Except.ok (composeId 0 1 1 1), Node.mk 1 1 1 0, [])
    ∧ decodeSequence (composeId 0 1 1 1) ≠ 0 := by
  refine ⟨le_rfl, rfl, rfl, ?_⟩
  unfold composeId
  exact decodeSequence_lor_one_ne_zero _

theorem C10_witness :
    (NewNode 2 3 = Except.ok (Node.mk 2 3 0 0) ∧ (0 : Int) ≤ Epoch)
    ∧ ((Node.mk 2 3 0 0).lastTimestamp = 0 ∧ (Node.mk 2 3 0 0).sequence = 0
      ∧ (0 < Epoch →
          generateLocally (Node.mk 2 3 0 0) [Epoch]
            = some (Except.ok (composeId Epoch 2 3 0), Node.mk 2 3 0 Epoch,
                [])
          ∧ (Epoch ≤ Epoch → Epoch < Epoch + 2 ^ 41 →
              decodeSequence (composeId Epoch 2 3 0) = 0))
      ∧ (Epoch = 0 →
          generateLocally (Node.mk 2 3 0 0) [Epoch]
            = some (Except.ok (composeId 0 2 3 1), Node.mk 2 3 1 0, [])
          ∧ decodeSequence (composeId 0 2 3 1) ≠ 0)) :=
  ⟨⟨rfl, by have := Epoch_pos; omega⟩,
    C10_first_call 2 3 Epoch (Node.mk 2 3 0 0) [] rfl
      (by have := Epoch_pos; omega)⟩

end Snowflake
